import Mathlib

/-!
Verification development for the Risk-Monitoring repository.

The definitions below are shallow embeddings of the Python source:
* `services/risk_calculator.py` — pure numeric metrics over return series,
  embedded over `ℚ` (`List ℚ` plays the role of a pandas Series; a missing /
  not-computable result is `Option.none`).
* `services/portfolio_service.py` — the portfolio ledger, embedded as explicit
  state passing over lists of rows.
* `services/data_service.py` — the tiered cache lookup, embedded as a function
  of an explicit store state and a clock (seconds since epoch as `ℕ`).
-/

set_option allowUnsafeReducibility true in
attribute [semireducible] Rat.add Rat.sub Rat.mul Rat.inv Rat.div

namespace RiskMonitoring

/-- Arithmetic mean of a list, `xs.sum / len(xs)` (pandas `.mean()`).
Division by zero follows the `ℚ` convention `x / 0 = 0`; callers below always
guard emptiness first, as the source does. -/
def listMean (xs : List ℚ) : ℚ := xs.sum / xs.length

/-- Sample variance with `ddof = 1` (pandas default for `.std()` / `.var()`):
`Σ (x − mean)² / (n − 1)`. For `n ≤ 1` pandas yields `NaN`; we return `none`
there. -/
def sampleVariance (xs : List ℚ) : Option ℚ :=
  if xs.length ≤ 1 then none
  else some (((xs.map (fun x => (x - listMean xs) ^ 2)).sum) / ((xs.length : ℚ) - 1))

/-- Sample covariance with `ddof = 1` (pandas `Series.cov`):
`Σ (x − mean x)(y − mean y) / (n − 1)` over a paired sample. -/
def sampleCov (ps : List (ℚ × ℚ)) : ℚ :=
  let mx := listMean (ps.map Prod.fst)
  let my := listMean (ps.map Prod.snd)
  ((ps.map (fun p => (p.1 - mx) * (p.2 - my))).sum) / ((ps.length : ℚ) - 1)

/-- Sample variance with `ddof = 1` as a total function (pandas `Series.var`);
only used by `calculate_beta`, where the `n ≥ 30` guard precedes it. -/
def sampleVarQ (xs : List ℚ) : ℚ :=
  ((xs.map (fun x => (x - listMean xs) ^ 2)).sum) / ((xs.length : ℚ) - 1)

/-- Insert into an ascending-sorted list (helper for `sortAsc`). -/
def insertSorted (x : ℚ) : List ℚ → List ℚ
  | [] => [x]
  | y :: ys => if x ≤ y then x :: y :: ys else y :: insertSorted x ys

/-- Ascending insertion sort (the internal sort pandas performs before
interpolating a quantile; any correct ascending sort agrees on the result). -/
def sortAsc (l : List ℚ) : List ℚ := l.foldr insertSorted []

/-- The linearly interpolated (type 7) quantile used by
`pandas.Series.quantile(q)` (default `interpolation='linear'`):
with `s` the sorted sample and `h = (n−1)·q`, the result is
`s⌊h⌋ + (h − ⌊h⌋) · (s⌊h⌋₊₁ − s⌊h⌋)`. Pandas requires `0 ≤ q ≤ 1`, so
`h ≥ 0` and its floor is `h.num.toNat / h.den`. -/
def quantileT7 (r : List ℚ) (q : ℚ) : ℚ :=
  let s := sortAsc r
  let h : ℚ := ((r.length : ℚ) - 1) * q
  let i : ℕ := h.num.toNat / h.den
  let lo := s.getD i 0
  let hi := s.getD (i + 1) lo
  lo + (h - (i : ℚ)) * (hi - lo)

/-- Embedding of `calculate_var` (`services/risk_calculator.py:13`): empty series is not
computable, otherwise `-returns.quantile(1 - confidence_level)`. -/
def calculate_var (returns : List ℚ) (confidence_level : ℚ) : Option ℚ :=
  if returns = [] then none
  else some (-(quantileT7 returns (1 - confidence_level)))

/-- Embedding of `calculate_es` (`services/risk_calculator.py:38`): empty series or empty
tail set `returns[returns < -var]` is not computable, otherwise the negated
tail mean. -/
def calculate_es (returns : List ℚ) (confidence_level : ℚ) : Option ℚ :=
  if returns = [] then none
  else
    match calculate_var returns confidence_level with
    | none => none
    | some var =>
      let tail := returns.filter (fun x => x < -var)
      if tail = [] then none
      else some (-(listMean tail))

/-- Result type of `calculate_sharpe_ratio`: Python returns `None`,
float `NaN` (when `std` of a 1-element series is `NaN`), `np.inf`, or a
finite float. A finite value `val e v` stands for `e / √v` where `e` is the
annualized excess return and `v` the annualized variance (so `√v` is the
annualized volatility); keeping the square avoids an irrational field. -/
inductive SharpeResult where
  | notComputable
  | nan
  | posInf
  | val (excess : ℚ) (varAnnual : ℚ)
deriving DecidableEq, Repr

/-- Embedding of `calculate_sharpe_ratio` (`services/risk_calculator.py:92`):
`annual_return = mean·252`, `annual_volatility = std·√252`; exactly-zero
volatility yields `+∞`, otherwise `(annual_return − rf) / annual_volatility`
(represented as `val (annual_return − rf) (variance·252)`). -/
def calculate_sharpe_ratio (returns : List ℚ) (risk_free_rate : ℚ) : SharpeResult :=
  if returns = [] then .notComputable
  else
    match sampleVariance returns with
    | none => .nan
    | some v =>
      if v * 252 = 0 then .posInf
      else .val (listMean returns * 252 - risk_free_rate) (v * 252)

/-- One row of the index-aligned asset/market pair: `none` stands for a
missing index or `NaN` value on that side. -/
def pairedSample (rows : List (Option ℚ × Option ℚ)) : List (ℚ × ℚ) :=
  rows.filterMap (fun p =>
    match p with
    | (some a, some b) => some (a, b)
    | _ => none)

/-- Embedding of `calculate_beta`, single-series branch (`services/risk_calculator.py:219`):
drop unpaired/NaN rows, require at least 30 paired observations and nonzero
market variance, else `cov / var`. -/
def calculate_beta (rows : List (Option ℚ × Option ℚ)) : Option ℚ :=
  let combined := pairedSample rows
  if combined.length < 30 then none
  else
    let marketVariance := sampleVarQ (combined.map Prod.snd)
    if marketVariance = 0 then none
    else some (sampleCov combined / marketVariance)

/-- Embedding of `calculate_beta`, multi-column branch (`services/risk_calculator.py:194`):
one beta (or `none`) per asset column, each computed over that column paired
with the market series. -/
def calculate_beta_multi (stocks : List (String × List (Option ℚ)))
    (market : List (Option ℚ)) : List (String × Option ℚ) :=
  stocks.map (fun s => (s.1, calculate_beta (s.2.zip market)))

/-! ### Portfolio ledger (`services/portfolio_service.py`, `models/portfolio.py`) -/

/-- A `PortfolioAsset` row (`models/portfolio.py:13`), restricted to one
portfolio (all service operations are keyed to a single `portfolio_id`).
`realized_pnl` has database default `0.0`; dates are abstract day stamps. -/
structure PortfolioAsset where
  symbol : String
  asset_class : String
  weight : ℚ
  allocation : ℚ
  purchase_price : Option ℚ
  quantity : Option ℚ
  purchase_date : Option ℕ
  realized_pnl : ℚ
deriving DecidableEq, Repr

/-- A `Transaction` row (`models/portfolio.py:31`). A `none` date stands for
the `datetime.now()` default. -/
structure Transaction where
  symbol : String
  transaction_type : String
  quantity : ℚ
  price : ℚ
  total_amount : ℚ
  transaction_date : Option ℕ
  notes : String
  realized_pnl : Option ℚ
deriving DecidableEq, Repr

/-- The mutable state one portfolio's service operations touch: its asset rows
(in insertion order, as `query.filter_by(...)` returns them) and the
transaction log. -/
structure PortfolioState where
  assets : List PortfolioAsset
  transactions : List Transaction
deriving DecidableEq, Repr

/-- Python-dict lookup over an association list built by repeated assignment:
the LAST binding of a key wins. -/
def lookupLast {β : Type} (l : List (String × β)) (s : String) : Option β :=
  l.foldl (fun acc p => if p.1 == s then some p.2 else acc) none

/-- Replace the first element satisfying `p` (the row returned by
`query.filter_by(...).first()` and then mutated). -/
def updateFirst {α : Type} (p : α → Bool) (f : α → α) : List α → List α
  | [] => []
  | x :: xs => if p x then f x :: xs else x :: updateFirst p f xs

/-- Embedding of `calculate_portfolio_weights` (`portfolio_service.py:8`): empty asset set
or zero total allocation give the empty dict, otherwise
`{symbol: allocation / total}` in row order. -/
def calculate_portfolio_weights (assets : List PortfolioAsset) : List (String × ℚ) :=
  if assets.isEmpty then []
  else
    let total := (assets.map (·.allocation)).sum
    if total = 0 then []
    else assets.map (fun a => (a.symbol, a.allocation / total))

/-- Write-back step of `update_portfolio_weights` (`portfolio_service.py:50`):
`if asset.symbol in weights: asset.weight = weights[asset.symbol]`; an asset
missing from the dict keeps its stored weight. -/
def applyWeight (ws : List (String × ℚ)) (a : PortfolioAsset) : PortfolioAsset :=
  match lookupLast ws a.symbol with
  | some w => { a with weight := w }
  | none => a

/-- Embedding of `update_portfolio_weights` (`portfolio_service.py:36`): write back
the recomputed weight for every asset whose symbol is in the dict. -/
def update_portfolio_weights (assets : List PortfolioAsset) : List PortfolioAsset :=
  assets.map (applyWeight (calculate_portfolio_weights assets))

/-- The allocation actually stored by `add_asset_to_portfolio`
(`portfolio_service.py:82`): when both `purchase_price` and `quantity` are
given, `purchase_price × quantity` overrides any caller-supplied figure
(both branches of the mismatch check assign `calculated_allocation`). -/
def computedAllocation (allocation : ℚ) (purchase_price quantity : Option ℚ) : ℚ :=
  match purchase_price, quantity with
  | some p, some q => p * q
  | _, _ => allocation

/-- Embedding of `add_asset_to_portfolio` (`portfolio_service.py:71`): update the first
existing row for the symbol (allocation and asset_class always overwritten;
price/quantity/date only when provided) or append a fresh row; record a BUY
transaction when price and quantity are both truthy; recompute weights. -/
def add_asset_to_portfolio (st : PortfolioState) (symbol asset_class : String)
    (allocation : ℚ) (purchase_price quantity : Option ℚ)
    (purchase_date : Option ℕ) : PortfolioState :=
  let alloc := computedAllocation allocation purchase_price quantity
  let assets1 :=
    if (st.assets.find? (fun a => a.symbol == symbol)).isSome then
      updateFirst (fun a => a.symbol == symbol)
        (fun a =>
          { a with
            allocation := alloc
            asset_class := asset_class
            purchase_price := match purchase_price with
              | some p => some p
              | none => a.purchase_price
            quantity := match quantity with
              | some q => some q
              | none => a.quantity
            purchase_date := match purchase_date with
              | some d => some d
              | none => a.purchase_date }) st.assets
    else
      st.assets ++ [{ symbol := symbol, asset_class := asset_class, weight := 0,
                      allocation := alloc, purchase_price := purchase_price,
                      quantity := quantity, purchase_date := purchase_date,
                      realized_pnl := 0 }]
  let txns :=
    match purchase_price, quantity with
    | some p, some q =>
      if p ≠ 0 ∧ q ≠ 0 then
        st.transactions ++
          [{ symbol := symbol, transaction_type := "BUY", quantity := q,
             price := p, total_amount := p * q, transaction_date := purchase_date,
             notes := "Initial purchase", realized_pnl := none }]
      else st.transactions
    | _, _ => st.transactions
  { assets := update_portfolio_weights assets1, transactions := txns }

/-- Result dict of `sell_asset`. -/
structure SellResult where
  success : Bool
  message : String
  realized_pnl : ℚ
  remaining_quantity : Option ℚ
  sale_proceeds : Option ℚ
deriving DecidableEq, Repr

/-- Cost basis used by `sell_asset` (`portfolio_service.py:192`):
`asset.purchase_price if asset.purchase_price else allocation / quantity`
(Python truthiness: `None` and `0` both fall back). -/
def sellCostBasis (a : PortfolioAsset) (q : ℚ) : ℚ :=
  match a.purchase_price with
  | some p => if p = 0 then a.allocation / q else p
  | none => a.allocation / q

/-- Embedding of `sell_asset` (`portfolio_service.py:150`): validate (symbol present,
positive held quantity, no oversell), then record realized P&L, shrink or
delete the row (threshold `remaining ≤ 0.0001`), append the SELL transaction
and recompute weights. Rejections return the state unchanged. -/
def sell_asset (st : PortfolioState) (symbol : String)
    (quantity_to_sell sell_price : ℚ) (sell_date : Option ℕ) :
    PortfolioState × SellResult :=
  match st.assets.find? (fun a => a.symbol == symbol) with
  | none =>
    (st, ⟨false, "Asset " ++ symbol ++ " not found in portfolio", 0, none, none⟩)
  | some asset =>
    match asset.quantity with
    | none => (st, ⟨false, "No shares of " ++ symbol ++ " to sell", 0, none, none⟩)
    | some q =>
      if q ≤ 0 then
        (st, ⟨false, "No shares of " ++ symbol ++ " to sell", 0, none, none⟩)
      else if quantity_to_sell > q then
        (st, ⟨false, "Cannot sell " ++ toString quantity_to_sell ++
              " shares. Only " ++ toString q ++ " shares available.", 0, none, none⟩)
      else
        let cost_basis := sellCostBasis asset q
        let sale_proceeds := sell_price * quantity_to_sell
        let realized := sale_proceeds - cost_basis * quantity_to_sell
        let remaining := q - quantity_to_sell
        let assets1 :=
          if remaining ≤ 1 / 10000 then
            st.assets.eraseP (fun a => a.symbol == symbol)
          else
            updateFirst (fun a => a.symbol == symbol)
              (fun a =>
                { a with quantity := some remaining,
                         allocation := cost_basis * remaining,
                         realized_pnl := a.realized_pnl + realized }) st.assets
        ({ assets := update_portfolio_weights assets1,
           transactions := st.transactions ++
             [{ symbol := symbol, transaction_type := "SELL",
                quantity := quantity_to_sell, price := sell_price,
                total_amount := sale_proceeds, transaction_date := sell_date,
                notes := "Sold " ++ toString quantity_to_sell ++ " shares",
                realized_pnl := some realized }] },
         ⟨true, "Successfully sold " ++ toString quantity_to_sell ++
            " shares of " ++ symbol, realized, some remaining, some sale_proceeds⟩)

/-- Embedding of `remove_asset_from_portfolio` (`portfolio_service.py:244`): delete the
first row for the symbol (if any) and recompute weights. -/
def remove_asset_from_portfolio (st : PortfolioState) (symbol : String) :
    PortfolioState × Bool :=
  if (st.assets.find? (fun a => a.symbol == symbol)).isSome then
    ({ assets := update_portfolio_weights
         (st.assets.eraseP (fun a => a.symbol == symbol)),
       transactions := st.transactions }, true)
  else (st, false)

/-- Embedding of `rebalance_portfolio` (`portfolio_service.py:370`): overwrite the
allocation of each named existing position, then recompute weights. -/
def rebalance_portfolio (st : PortfolioState)
    (target_allocations : List (String × ℚ)) : PortfolioState :=
  let assets1 := target_allocations.foldl
    (fun acc t =>
      updateFirst (fun a => a.symbol == t.1) (fun a => { a with allocation := t.2 }) acc)
    st.assets
  { assets := update_portfolio_weights assets1, transactions := st.transactions }

/-! ### Tiered data cache (`services/data_service.py`, `models/stock.py`) -/

/-- A `StockAnalysisCache` row (`models/stock.py`): durable cache metadata for
one `(ticker, period)`. `last_updated` is a timestamp in seconds. -/
structure StockAnalysisCacheEntry where
  ticker : String
  period : String
  last_updated : ℕ
  is_valid : Bool
deriving DecidableEq, Repr

/-- The durable store: cache-metadata rows plus, per ticker, the number of
`StockData` price rows present (the claims only need data presence, so rows
are summarized by their count, which also serves as the returned payload). -/
structure DataDb where
  cacheEntries : List StockAnalysisCacheEntry
  rowCounts : List (String × ℕ)
deriving DecidableEq, Repr

/-- Embedding of `get_stock_data_from_db` (`data_service.py:113`): serve the durable cache
iff a valid entry exists, its age has whole-day component ≤ 1
(`cache_age.days > 1` refreshes), and price rows exist. `now` is the clock in
seconds; `timedelta.days` of a nonnegative age is `age / 86400`. Returns the
row count standing in for the retrieved frame. -/
def get_stock_data_from_db (db : DataDb) (ticker period : String) (now : ℕ) :
    Option ℕ :=
  match db.cacheEntries.find?
      (fun e => e.ticker == ticker && e.period == period && e.is_valid) with
  | none => none
  | some entry =>
    if (now - entry.last_updated) / 86400 > 1 then none
    else
      match lookupLast db.rowCounts ticker with
      | none => none
      | some n => if n = 0 then none else some n

/-- Which tier ended up answering a `fetch_stock_data` call. `api` stands for
the whole external path (Alpha Vantage with yfinance fallback). -/
inductive FetchSource where
  | durable
  | ephemeral
  | api
deriving DecidableEq, Repr

/-- The in-process module cache `_data_cache` (`data_service.py:10`):
key → (payload, time cached). -/
structure FetchState where
  db : DataDb
  memCache : List (String × ℕ × ℕ)
deriving DecidableEq, Repr

/-- The memory-cache key `f"{'-'.join(tickers)}_{period}_{interval}"`
(`data_service.py:179`) — tickers joined in request order, not sorted. -/
def cacheKey (tickers : List String) (period interval : String) : String :=
  String.intercalate "-" tickers ++ "_" ++ period ++ "_" ++ interval

/-- Embedding of `fetch_stock_data` (`data_service.py:164`), up to the tier decision:
single-ticker requests try the durable database cache FIRST and consult the
memory cache only on a database miss; multi-ticker requests go straight to
the memory cache. A memory hit requires `(now - cached_time).seconds < 300`
(the `seconds` component, i.e. mod one day). Anything else goes to the
external providers, abstracted as `api` with no payload. -/
def fetch_stock_data (st : FetchState) (tickers : List String)
    (period interval : String) (now : ℕ) : FetchSource × Option ℕ :=
  let memStep : FetchSource × Option ℕ :=
    match lookupLast st.memCache (cacheKey tickers period interval) with
    | some (d, t) => if (now - t) % 86400 < 300 then (.ephemeral, some d) else (.api, none)
    | none => (.api, none)
  if tickers.length = 1 then
    match get_stock_data_from_db st.db (tickers.headD "") period now with
    | some d => (.durable, some d)
    | none => memStep
  else memStep

/-! ### Supporting lemmas -/

theorem list_sum_lt_length_mul (b : ℚ) :
    ∀ l : List ℚ, l ≠ [] → (∀ x ∈ l, x < b) → l.sum < l.length * b := by
  intro l
  induction l with
  | nil => intro h; exact absurd rfl h
  | cons x xs ih =>
    intro _ hall
    rcases eq_or_ne xs [] with h | h
    · subst h; simpa using hall x (by simp)
    · have h1 := ih h (fun y hy => hall y (List.mem_cons_of_mem _ hy))
      have h2 := hall x (List.mem_cons_self x xs)
      simp only [List.sum_cons, List.length_cons]
      push_cast
      nlinarith [h1, h2]

theorem listMean_lt_of_forall_lt (b : ℚ) (l : List ℚ) (hne : l ≠ [])
    (hall : ∀ x ∈ l, x < b) : listMean l < b := by
  have hlen : (0 : ℚ) < l.length := by
    have := List.length_pos.mpr hne
    exact_mod_cast this
  have := list_sum_lt_length_mul b l hne hall
  rw [listMean, div_lt_iff₀ hlen]
  linarith

theorem lookupLast_noKey {β : Type} (s : String) (l : List (String × β))
    (h : ∀ p ∈ l, (p.1 == s) = false) (acc : Option β) :
    l.foldl (fun acc p => if p.1 == s then some p.2 else acc) acc = acc := by
  induction l generalizing acc with
  | nil => rfl
  | cons x xs ih =>
    simp only [List.foldl_cons, h x (by simp)]
    exact ih (fun p hp => h p (List.mem_cons_of_mem _ hp)) acc

theorem lookupLast_split {β : Type} (s : String) (v : β)
    (l₁ l₂ : List (String × β)) (h : ∀ p ∈ l₂, (p.1 == s) = false) :
    lookupLast (l₁ ++ (s, v) :: l₂) s = some v := by
  rw [lookupLast, List.foldl_append, List.foldl_cons]
  simp only [beq_self_eq_true, if_pos]
  exact lookupLast_noKey s l₂ h _

theorem length_updateFirst {α : Type} (p : α → Bool) (f : α → α) :
    ∀ l : List α, (updateFirst p f l).length = l.length := by
  intro l
  induction l with
  | nil => rfl
  | cons x xs ih =>
    rw [updateFirst]
    by_cases h : p x <;> simp [h, ih]

theorem find?_updateFirst {α : Type} (p : α → Bool) (f : α → α)
    (hp : ∀ a, p (f a) = p a) :
    ∀ l : List α, (updateFirst p f l).find? p = (l.find? p).map f := by
  intro l
  induction l with
  | nil => rfl
  | cons x xs ih =>
    rw [updateFirst]
    by_cases h : p x
    · simp [List.find?_cons, h, hp x]
    · simp [List.find?_cons, h, ih]

theorem find?_map_pres {α : Type} (g : α → α) (p : α → Bool)
    (hp : ∀ a, p (g a) = p a) :
    ∀ l : List α, (l.map g).find? p = (l.find? p).map g := by
  intro l
  induction l with
  | nil => rfl
  | cons x xs ih =>
    by_cases h : p x
    · simp [List.find?_cons, h, hp x]
    · simp [List.find?_cons, h, hp x, ih]

theorem find?_eraseP_symbol (s : String) :
    ∀ l : List PortfolioAsset, (l.map (·.symbol)).Nodup →
      (l.eraseP (fun a => a.symbol == s)).find? (fun a => a.symbol == s) = none := by
  intro l
  induction l with
  | nil => intro _; rfl
  | cons x xs ih =>
    intro hnd
    simp only [List.map_cons, List.nodup_cons] at hnd
    by_cases h : x.symbol == s
    · rw [List.eraseP_cons, h, cond_true, List.find?_eq_none]
      intro y hy hys
      have hxs : x.symbol = s := by simpa using h
      have hys' : y.symbol = s := by simpa using hys
      exact hnd.1 (by rw [hxs, ← hys']; exact List.mem_map_of_mem _ hy)
    · have hb : (x.symbol == s) = false := by simpa using h
      rw [List.eraseP_cons, hb, cond_false]
      simp [List.find?_cons, hb, ih hnd.2]

theorem applyWeight_fields (ws : List (String × ℚ)) (a : PortfolioAsset) :
    (applyWeight ws a).symbol = a.symbol ∧
    (applyWeight ws a).asset_class = a.asset_class ∧
    (applyWeight ws a).allocation = a.allocation ∧
    (applyWeight ws a).purchase_price = a.purchase_price ∧
    (applyWeight ws a).quantity = a.quantity ∧
    (applyWeight ws a).purchase_date = a.purchase_date ∧
    (applyWeight ws a).realized_pnl = a.realized_pnl := by
  cases h : lookupLast ws a.symbol <;> simp [applyWeight, h]

theorem sum_map_div (c : ℚ) :
    ∀ l : List ℚ, (l.map (fun x => x / c)).sum = l.sum / c := by
  intro l
  induction l with
  | nil => simp
  | cons x xs ih => simp [ih, add_div]

/-! ### Claim theorems -/

/-- C6: for a non-empty return series and confidence in (0,1), VaR is the
negation of the type-7 linearly interpolated quantile at level 1 − c, and VaR
of an empty series is not computable. -/
theorem c6_var_is_neg_type7_quantile (r : List ℚ) (c : ℚ)
    (hne : r ≠ []) (_hc0 : 0 < c) (_hc1 : c < 1) :
    calculate_var r c = some (-(quantileT7 r (1 - c))) ∧
    calculate_var ([] : List ℚ) c = none :=
  ⟨by simp [calculate_var, hne], by simp [calculate_var]⟩

/-- Witness for C6 at the spec's example:
VaR([-0.10, -0.05, 0.00, 0.05, 0.10], 0.80) = 0.06. -/
theorem c6_var_witness :
    calculate_var [-(1/10), -(1/20), 0, 1/20, 1/10] (4/5) = some (3/50) ∧
    calculate_var ([] : List ℚ) (4/5) = none := by
  have h := c6_var_is_neg_type7_quantile [-(1/10), -(1/20), 0, 1/20, 1/10] (4/5)
    (by decide) (by norm_num) (by norm_num)
  exact ⟨h.1.trans (by decide), h.2⟩

/-- C7 counterexample: with r = [4, 5, 5] and c = 1/2 both VaR = −5 and
ES = −4 are computable, yet |ES| = 4 < 5 = |VaR|, refuting
"|ES(r, c)| ≥ |VaR(r, c)| whenever both are computable". -/
theorem c7_counterexample :
    calculate_var [4, 5, 5] (1/2) = some (-5) ∧
    calculate_es [4, 5, 5] (1/2) = some (-4) ∧
    ¬ (|(-5 : ℚ)| ≤ |(-4 : ℚ)|) :=
  ⟨by decide, by decide, by norm_num⟩

/-- C7 amended: whenever VaR and ES are both computable AND VaR is
nonnegative, |ES| ≥ |VaR| (every tail element lies strictly below −VaR, so
the tail mean does too). -/
theorem c7_amended_abs_es_ge_abs_var (r : List ℚ) (c v e : ℚ)
    (hv : calculate_var r c = some v) (he : calculate_es r c = some e)
    (hv0 : 0 ≤ v) : |v| ≤ |e| := by
  rcases eq_or_ne r [] with hr | hr
  · rw [calculate_es, if_pos hr] at he
    exact absurd he (by simp)
  · simp only [calculate_es, if_neg hr, hv] at he
    by_cases ht : r.filter (fun x => x < -v) = []
    · rw [if_pos ht] at he
      exact absurd he (by simp)
    · rw [if_neg ht] at he
      have he' : e = -(listMean (r.filter (fun x => x < -v))) :=
        (Option.some.inj he).symm
      have hall : ∀ x ∈ r.filter (fun x => x < -v), x < -v := by
        intro x hx
        have := List.of_mem_filter hx
        simpa using this
      have hm := listMean_lt_of_forall_lt (-v) _ ht hall
      have hev : v < e := by rw [he']; linarith
      rw [abs_of_nonneg hv0, abs_of_nonneg (le_of_lt (lt_of_le_of_lt hv0 hev))]
      exact le_of_lt hev

/-- Witness for the amended C7: at the spec's example series with c = 0.8,
VaR = 0.06 ≥ 0, ES = 0.10, and |0.06| ≤ |0.10|. -/
theorem c7_amended_witness :
    calculate_var [-(1/10), -(1/20), 0, 1/20, 1/10] (4/5) = some (3/50) ∧
    calculate_es [-(1/10), -(1/20), 0, 1/20, 1/10] (4/5) = some (1/10) ∧
    |(3/50 : ℚ)| ≤ |(1/10 : ℚ)| :=
  ⟨by decide, by decide,
   c7_amended_abs_es_ge_abs_var [-(1/10), -(1/20), 0, 1/20, 1/10] (4/5) (3/50) (1/10)
     (by decide) (by decide) (by norm_num)⟩

/-- C8: for a non-empty series whose annualized volatility is exactly zero
(equivalently, sample variance `some 0`), the Sharpe ratio is +∞ rather than
not-computable; otherwise it is the annualized excess return over the
annualized volatility (here `val excess (variance·252)`, standing for
`excess / √(variance·252)`). -/
theorem c8_sharpe_zero_volatility (r : List ℚ) (rf : ℚ) (hne : r ≠ []) :
    (sampleVariance r = some 0 → calculate_sharpe_ratio r rf = .posInf) ∧
    (∀ v, sampleVariance r = some v → v ≠ 0 →
      calculate_sharpe_ratio r rf = .val (listMean r * 252 - rf) (v * 252)) := by
  constructor
  · intro h
    simp [calculate_sharpe_ratio, hne, h]
  · intro v h hv
    have h252 : ¬ (v * 252 = 0) := by
      simp [hv]
    simp [calculate_sharpe_ratio, hne, h, h252]

/-- Witness for C8 at the spec's example: the constant series
[0.01, 0.01, 0.01] with risk-free rate 0 has zero variance and Sharpe +∞. -/
theorem c8_sharpe_witness :
    sampleVariance [1/100, 1/100, 1/100] = some 0 ∧
    calculate_sharpe_ratio [1/100, 1/100, 1/100] 0 = SharpeResult.posInf :=
  ⟨by decide,
   (c8_sharpe_zero_volatility [1/100, 1/100, 1/100] 0 (by decide)).1 (by decide)⟩

/-- C9: Beta is not computable when the index-aligned paired sample (after
dropping unmatched/NaN points) has fewer than 30 observations — regardless of
the data — and when the market variance over that sample is zero; otherwise
it is cov/var over the paired sample; the multi-asset branch yields one beta
(or none) per asset. -/
theorem c9_beta_guards (rows : List (Option ℚ × Option ℚ))
    (stocks : List (String × List (Option ℚ))) (market : List (Option ℚ)) :
    ((pairedSample rows).length < 30 → calculate_beta rows = none) ∧
    (sampleVarQ ((pairedSample rows).map Prod.snd) = 0 → calculate_beta rows = none) ∧
    (30 ≤ (pairedSample rows).length →
      sampleVarQ ((pairedSample rows).map Prod.snd) ≠ 0 →
      calculate_beta rows =
        some (sampleCov (pairedSample rows) /
          sampleVarQ ((pairedSample rows).map Prod.snd))) ∧
    calculate_beta_multi stocks market
      = stocks.map (fun s => (s.1, calculate_beta (s.2.zip market))) := by
  refine ⟨?_, ?_, ?_, rfl⟩
  · intro h
    simp [calculate_beta, h]
  · intro h
    by_cases hl : (pairedSample rows).length < 30
    · simp [calculate_beta, hl]
    · simp [calculate_beta, hl, h]
  · intro h1 h2
    simp [calculate_beta, Nat.not_lt.mpr h1, h2]

set_option maxRecDepth 40000 in
/-- Witness for C9: one paired observation gives none; 30 perfectly aligned
pairs (x, x) give beta 1. -/
theorem c9_beta_witness :
    calculate_beta [((some 1 : Option ℚ), (some 2 : Option ℚ))] = none ∧
    calculate_beta ((List.range 30).map (fun i => (some (i : ℚ), some (i : ℚ))))
      = some 1 := by
  constructor
  · exact (c9_beta_guards [((some 1 : Option ℚ), (some 2 : Option ℚ))] [] []).1
      (by decide)
  · have h := (c9_beta_guards
      ((List.range 30).map (fun i => (some (i : ℚ), some (i : ℚ)))) [] []).2.2.1
      (by decide) (by decide)
    rw [h]
    decide

/-- C4: sell_asset rejects with a specific reason and leaves the whole state
(positions, weights, transaction log) unchanged when the symbol has no
position or when the requested quantity exceeds the held quantity. -/
theorem c4_sell_reject (st : PortfolioState) (symbol : String) (q2s sp : ℚ)
    (d : Option ℕ) :
    (st.assets.find? (fun a => a.symbol == symbol) = none →
      sell_asset st symbol q2s sp d =
        (st, ⟨false, "Asset " ++ symbol ++ " not found in portfolio", 0, none, none⟩)) ∧
    (∀ asset q, st.assets.find? (fun a => a.symbol == symbol) = some asset →
      asset.quantity = some q → 0 < q → q < q2s →
      sell_asset st symbol q2s sp d =
        (st, ⟨false, "Cannot sell " ++ toString q2s ++ " shares. Only " ++
              toString q ++ " shares available.", 0, none, none⟩)) := by
  constructor
  · intro h
    simp [sell_asset, h]
  · intro asset q hf hq hq0 hlt
    simp [sell_asset, hf, hq, not_le.mpr hq0, hlt]

/-- Witness for C4 at the spec's example: holding 6 shares, selling 10 is
rejected and the portfolio state is returned unchanged. -/
theorem c4_sell_reject_witness :
    (sell_asset ⟨[⟨"AAPL", "stock", 1, 300, some 50, some 6, none, 0⟩], []⟩
        "AAPL" 10 60 none).1 =
      ⟨[⟨"AAPL", "stock", 1, 300, some 50, some 6, none, 0⟩], []⟩ ∧
    (sell_asset ⟨[⟨"AAPL", "stock", 1, 300, some 50, some 6, none, 0⟩], []⟩
        "AAPL" 10 60 none).2.success = false := by
  have h := (c4_sell_reject ⟨[⟨"AAPL", "stock", 1, 300, some 50, some 6, none, 0⟩], []⟩
      "AAPL" 10 60 none).2 ⟨"AAPL", "stock", 1, 300, some 50, some 6, none, 0⟩ 6
      (by decide) rfl (by norm_num) (by norm_num)
  exact ⟨by rw [h], by rw [h]⟩

/-- C3: for a held position with quantity q > 0 and a sale of at most q
shares, the cost basis is the stored purchase price when truthy and
allocation/q otherwise; the recorded realized P&L is
(sellPrice − costBasis) · quantityToSell; a sale exhausting the position
(within the 0.0001 tolerance) removes it, otherwise the quantity drops to
q − quantityToSell and the allocation to costBasis · (q − quantityToSell). -/
theorem c3_sell_pnl (st : PortfolioState) (symbol : String) (q2s sp : ℚ)
    (d : Option ℕ) (asset : PortfolioAsset) (q : ℚ)
    (hnd : (st.assets.map (·.symbol)).Nodup)
    (hfind : st.assets.find? (fun a => a.symbol == symbol) = some asset)
    (hq : asset.quantity = some q) (hq0 : 0 < q) (hle : q2s ≤ q) :
    (∀ p, asset.purchase_price = some p → p ≠ 0 → sellCostBasis asset q = p) ∧
    (asset.purchase_price = none → sellCostBasis asset q = asset.allocation / q) ∧
    (sell_asset st symbol q2s sp d).2.realized_pnl
      = (sp - sellCostBasis asset q) * q2s ∧
    (q - q2s ≤ 1 / 10000 →
      (sell_asset st symbol q2s sp d).1.assets.find?
        (fun a => a.symbol == symbol) = none) ∧
    (¬ (q - q2s ≤ 1 / 10000) →
      ∃ a', (sell_asset st symbol q2s sp d).1.assets.find?
          (fun a => a.symbol == symbol) = some a' ∧
        a'.quantity = some (q - q2s) ∧
        a'.allocation = sellCostBasis asset q * (q - q2s) ∧
        a'.realized_pnl = asset.realized_pnl + (sp - sellCostBasis asset q) * q2s) := by
  have hq0' : ¬ (q ≤ 0) := not_le.mpr hq0
  have hnlt : ¬ (q < q2s) := not_lt.mpr hle
  refine ⟨?_, ?_, ?_, ?_, ?_⟩
  · intro p hp hp0
    simp [sellCostBasis, hp, hp0]
  · intro hnone
    simp [sellCostBasis, hnone]
  · simp only [sell_asset, hfind, hq]
    rw [if_neg hq0', if_neg hnlt]
    ring
  · intro hrem
    simp only [sell_asset, hfind, hq]
    rw [if_neg hq0', if_neg hnlt]
    simp only [if_pos hrem]
    rw [update_portfolio_weights,
      find?_map_pres _ _ (fun a => by rw [(applyWeight_fields _ a).1]),
      find?_eraseP_symbol symbol st.assets hnd]
    rfl
  · intro hrem
    simp only [sell_asset, hfind, hq]
    rw [if_neg hq0', if_neg hnlt]
    simp only [if_neg hrem]
    rw [update_portfolio_weights,
      find?_map_pres _ _ (fun a => by rw [(applyWeight_fields _ a).1]),
      find?_updateFirst _ _ (by intro a; rfl), hfind]
    refine ⟨_, rfl, ?_, ?_, ?_⟩
    · rw [(applyWeight_fields _ _).2.2.2.2.1]
    · rw [(applyWeight_fields _ _).2.2.1]
    · rw [(applyWeight_fields _ _).2.2.2.2.2.2]
      ring

/-- Witness for C3 at the spec's ledger example: BUY 10 @ 50 (allocation 500)
then SELL 4 @ 60 yields realized P&L 40, remaining quantity 6, remaining
allocation 300. -/
theorem c3_sell_witness :
    (sell_asset
        (add_asset_to_portfolio ⟨[], []⟩ "AAPL" "stock" 500 (some 50) (some 10) none)
        "AAPL" 4 60 none).2.realized_pnl = 40 ∧
    (∃ a', (sell_asset
        (add_asset_to_portfolio ⟨[], []⟩ "AAPL" "stock" 500 (some 50) (some 10) none)
        "AAPL" 4 60 none).1.assets.find? (fun a => a.symbol == "AAPL") = some a' ∧
      a'.quantity = some 6 ∧ a'.allocation = 300) := by
  have h := c3_sell_pnl
    (add_asset_to_portfolio ⟨[], []⟩ "AAPL" "stock" 500 (some 50) (some 10) none)
    "AAPL" 4 60 none ⟨"AAPL", "stock", 1, 500, some 50, some 10, none, 0⟩ 10
    (by decide) (by decide) rfl (by norm_num) (by norm_num)
  have hcb : sellCostBasis ⟨"AAPL", "stock", 1, 500, some 50, some 10, none, 0⟩ 10 = 50 :=
    h.1 50 rfl (by norm_num)
  constructor
  · rw [h.2.2.1, hcb]
    norm_num
  · obtain ⟨a', h1, h2, h3, _⟩ := h.2.2.2.2 (by norm_num)
    refine ⟨a', h1, ?_, ?_⟩
    · rw [h2]; norm_num
    · rw [h3, hcb]; norm_num

/-- C10: adding a symbol that already has a position updates that row in
place — allocation replaced by the newly computed figure (not accumulated),
asset_class overwritten, price/quantity/date only overwritten when provided,
realized_pnl untouched — creates no second row, and leaves all previously
recorded transactions unchanged. -/
theorem c10_add_existing (st : PortfolioState) (symbol asset_class : String)
    (alloc : ℚ) (pp qty : Option ℚ) (pd : Option ℕ) (a : PortfolioAsset)
    (hfind : st.assets.find? (fun x => x.symbol == symbol) = some a) :
    (add_asset_to_portfolio st symbol asset_class alloc pp qty pd).assets.length
      = st.assets.length ∧
    (∃ a', (add_asset_to_portfolio st symbol asset_class alloc pp qty pd).assets.find?
        (fun x => x.symbol == symbol) = some a' ∧
      a'.allocation = computedAllocation alloc pp qty ∧
      a'.asset_class = asset_class ∧
      a'.purchase_price = (match pp with | some p => some p | none => a.purchase_price) ∧
      a'.quantity = (match qty with | some v => some v | none => a.quantity) ∧
      a'.purchase_date = (match pd with | some v => some v | none => a.purchase_date) ∧
      a'.realized_pnl = a.realized_pnl) ∧
    (add_asset_to_portfolio st symbol asset_class alloc pp qty pd).transactions.take
      st.transactions.length = st.transactions := by
  have hs : (st.assets.find? (fun x => x.symbol == symbol)).isSome = true := by
    rw [hfind]; rfl
  refine ⟨?_, ?_, ?_⟩
  · simp only [add_asset_to_portfolio, hs, if_pos, update_portfolio_weights,
      List.length_map, length_updateFirst]
  · simp only [add_asset_to_portfolio, hs, if_pos, update_portfolio_weights]
    rw [find?_map_pres _ _ (fun x => by rw [(applyWeight_fields _ x).1]),
      find?_updateFirst _ _ (by intro x; rfl), hfind]
    refine ⟨_, rfl, ?_, ?_, ?_, ?_, ?_, ?_⟩
    · rw [(applyWeight_fields _ _).2.2.1]
    · rw [(applyWeight_fields _ _).2.1]
    · rw [(applyWeight_fields _ _).2.2.2.1]
    · rw [(applyWeight_fields _ _).2.2.2.2.1]
    · rw [(applyWeight_fields _ _).2.2.2.2.2.1]
    · rw [(applyWeight_fields _ _).2.2.2.2.2.2]
  · simp only [add_asset_to_portfolio]
    rcases pp with _ | p <;> rcases qty with _ | v
    · exact List.take_length st.transactions
    · exact List.take_length st.transactions
    · exact List.take_length st.transactions
    · by_cases hb : p ≠ 0 ∧ v ≠ 0
      · simp only [if_pos hb]
        exact List.take_left st.transactions _
      · simp only [if_neg hb]
        exact List.take_length st.transactions

/-- Witness for C10: after BUY AAPL 10 @ 50, re-adding AAPL as "etf" with
allocation 999 and quantity 3 (no price) leaves one row whose allocation is
999, price still 50, quantity 3, realized_pnl 0. -/
theorem c10_add_witness :
    (add_asset_to_portfolio
        (add_asset_to_portfolio ⟨[], []⟩ "AAPL" "stock" 500 (some 50) (some 10) none)
        "AAPL" "etf" 999 none (some 3) none).assets.length = 1 ∧
    (∃ a', (add_asset_to_portfolio
        (add_asset_to_portfolio ⟨[], []⟩ "AAPL" "stock" 500 (some 50) (some 10) none)
        "AAPL" "etf" 999 none (some 3) none).assets.find?
          (fun x => x.symbol == "AAPL") = some a' ∧
      a'.allocation = 999 ∧ a'.asset_class = "etf" ∧
      a'.purchase_price = some 50 ∧ a'.quantity = some 3 ∧ a'.realized_pnl = 0) := by
  have h := c10_add_existing
    (add_asset_to_portfolio ⟨[], []⟩ "AAPL" "stock" 500 (some 50) (some 10) none)
    "AAPL" "etf" 999 none (some 3) none
    ⟨"AAPL", "stock", 1, 500, some 50, some 10, none, 0⟩ (by decide)
  constructor
  · rw [h.1]; decide
  · obtain ⟨a', h1, h2, h3, h4, h5, _, h7⟩ := h.2.1
    exact ⟨a', h1, by rw [h2]; decide, h3, h4, h5, h7⟩

/-- C5 counterexample: adding positions with allocations 600, 300, −300 and
then removing the 600 one leaves nonzero allocations [300, −300] whose total
is 0, so the weight update is skipped: the stored weights sum to 0, not to
1.0 ± 1e-9, refuting the claim for states with at least one nonzero
allocation. -/
theorem c5_counterexample :
    ((remove_asset_from_portfolio
        (add_asset_to_portfolio
          (add_asset_to_portfolio
            (add_asset_to_portfolio ⟨[], []⟩ "A" "stock" 600 none none none)
            "B" "stock" 300 none none none)
          "C" "stock" (-300) none none none)
        "A").1.assets.map (·.allocation)) = [300, -300] ∧
    (((remove_asset_from_portfolio
        (add_asset_to_portfolio
          (add_asset_to_portfolio
            (add_asset_to_portfolio ⟨[], []⟩ "A" "stock" 600 none none none)
            "B" "stock" 300 none none none)
          "C" "stock" (-300) none none none)
        "A").1.assets.map (·.weight)).sum = 0) ∧
    ¬ (|(0 : ℚ) - 1| ≤ 1 / 1000000000) := by
  refine ⟨by decide, by decide, by norm_num⟩

/-- Lookup of a member asset's recomputed weight: with pairwise-distinct
symbols and a nonzero allocation total, the weights dict binds each symbol to
its allocation share. -/
theorem lookupLast_weights (assets : List PortfolioAsset) (a : PortfolioAsset)
    (ha : a ∈ assets) (hnd : (assets.map (·.symbol)).Nodup)
    (ht : (assets.map (·.allocation)).sum ≠ 0) :
    lookupLast (calculate_portfolio_weights assets) a.symbol
      = some (a.allocation / (assets.map (·.allocation)).sum) := by
  obtain ⟨s₁, s₂, rfl⟩ := List.append_of_mem ha
  have hne : (s₁ ++ a :: s₂).isEmpty = false := by simp
  rw [calculate_portfolio_weights]
  simp only [hne, Bool.false_eq_true, if_false, if_neg ht]
  rw [List.map_append, List.map_cons]
  apply lookupLast_split
  intro p hp
  obtain ⟨x, hx, rfl⟩ := List.mem_map.mp hp
  have hns : a.symbol ∉ s₂.map (·.symbol) := by
    have h2 : (s₁.map (·.symbol) ++ (a :: s₂).map (·.symbol)).Nodup := by
      rw [← List.map_append]
      exact hnd
    have h3 := h2.of_append_right
    rw [List.map_cons, List.nodup_cons] at h3
    exact h3.1
  have : x.symbol ≠ a.symbol := fun he =>
    hns (he ▸ List.mem_map_of_mem (·.symbol) hx)
  simpa using this

/-- C5 amended: whenever the total allocation is nonzero (in particular when
all allocations are nonnegative and at least one is nonzero) and symbols are
pairwise distinct, recomputing weights sets every position's weight to
allocation / total and the weights sum to exactly 1; and every ledger
operation (add, successful sell, successful removal, rebalance) ends by
recomputing weights this way. -/
theorem c5_amended_weight_invariant (assets : List PortfolioAsset)
    (hnd : (assets.map (·.symbol)).Nodup)
    (ht : (assets.map (·.allocation)).sum ≠ 0) :
    update_portfolio_weights assets
      = assets.map (fun a =>
          { a with weight := a.allocation / (assets.map (·.allocation)).sum }) ∧
    ((update_portfolio_weights assets).map (·.weight)).sum = 1 ∧
    (∀ st sym ac al pp qty pd, ∃ mid,
      (add_asset_to_portfolio st sym ac al pp qty pd).assets
        = update_portfolio_weights mid) ∧
    (∀ st sym q2s sp dd, (sell_asset st sym q2s sp dd).2.success = true →
      ∃ mid, (sell_asset st sym q2s sp dd).1.assets = update_portfolio_weights mid) ∧
    (∀ st sym, (remove_asset_from_portfolio st sym).2 = true →
      ∃ mid, (remove_asset_from_portfolio st sym).1.assets
        = update_portfolio_weights mid) ∧
    (∀ st ts, ∃ mid,
      (rebalance_portfolio st ts).assets = update_portfolio_weights mid) := by
  have h1 : update_portfolio_weights assets
      = assets.map (fun a =>
          { a with weight := a.allocation / (assets.map (·.allocation)).sum }) := by
    rw [update_portfolio_weights]
    apply List.map_congr_left
    intro a ha
    rw [applyWeight, lookupLast_weights assets a ha hnd ht]
  refine ⟨h1, ?_, ?_, ?_, ?_, ?_⟩
  · rw [h1, List.map_map]
    have h2 : ((fun x : PortfolioAsset => x.weight) ∘ fun a =>
        { a with weight := a.allocation / (assets.map (·.allocation)).sum })
        = fun a : PortfolioAsset =>
            a.allocation / (assets.map (·.allocation)).sum := rfl
    rw [h2]
    have h3 : assets.map (fun a : PortfolioAsset =>
        a.allocation / (assets.map (·.allocation)).sum)
        = (assets.map (·.allocation)).map
            (fun x => x / (assets.map (·.allocation)).sum) := by
      rw [List.map_map]
      rfl
    rw [h3, sum_map_div, div_self ht]
  · intro st sym ac al pp qty pd
    exact ⟨_, rfl⟩
  · intro st sym q2s sp dd hsucc
    cases hf : st.assets.find? (fun a => a.symbol == sym) with
    | none =>
      rw [sell_asset] at hsucc
      simp only [hf] at hsucc
      exact absurd hsucc (by simp)
    | some asset =>
      cases hq : asset.quantity with
      | none =>
        rw [sell_asset] at hsucc
        simp only [hf, hq] at hsucc
        exact absurd hsucc (by simp)
      | some q =>
        by_cases h0 : q ≤ 0
        · rw [sell_asset] at hsucc
          simp only [hf, hq, if_pos h0] at hsucc
          exact absurd hsucc (by simp)
        · by_cases hlt : q < q2s
          · rw [sell_asset] at hsucc
            simp only [hf, hq, if_neg h0, if_pos hlt] at hsucc
            exact absurd hsucc (by simp)
          · by_cases hrem : q - q2s ≤ 1 / 10000
            · refine ⟨st.assets.eraseP (fun a => a.symbol == sym), ?_⟩
              rw [sell_asset]
              simp only [hf, hq, if_neg h0, if_neg hlt, if_pos hrem]
            · refine ⟨updateFirst (fun a => a.symbol == sym)
                (fun a =>
                  { a with quantity := some (q - q2s),
                           allocation := sellCostBasis asset q * (q - q2s),
                           realized_pnl := a.realized_pnl +
                             (sp * q2s - sellCostBasis asset q * q2s) })
                st.assets, ?_⟩
              rw [sell_asset]
              simp only [hf, hq, if_neg h0, if_neg hlt, if_neg hrem]
  · intro st sym hsucc
    by_cases hf : (st.assets.find? (fun a => a.symbol == sym)).isSome = true
    · refine ⟨st.assets.eraseP (fun a => a.symbol == sym), ?_⟩
      rw [remove_asset_from_portfolio, if_pos hf]
    · rw [remove_asset_from_portfolio, if_neg hf] at hsucc
      exact absurd hsucc (by simp)
  · intro st ts
    exact ⟨_, rfl⟩

/-- Witness for the amended C5 at the spec's example: allocations
{600, 400, 0} recompute to weights {0.6, 0.4, 0.0} which sum to exactly 1. -/
theorem c5_amended_witness :
    ((update_portfolio_weights
        [⟨"X", "stock", 0, 600, none, none, none, 0⟩,
         ⟨"Y", "stock", 0, 400, none, none, none, 0⟩,
         ⟨"Z", "stock", 0, 0, none, none, none, 0⟩]).map (·.weight))
      = [3/5, 2/5, 0] ∧
    ((update_portfolio_weights
        [⟨"X", "stock", 0, 600, none, none, none, 0⟩,
         ⟨"Y", "stock", 0, 400, none, none, none, 0⟩,
         ⟨"Z", "stock", 0, 0, none, none, none, 0⟩]).map (·.weight)).sum = 1 := by
  have h := c5_amended_weight_invariant
    [⟨"X", "stock", 0, 600, none, none, none, 0⟩,
     ⟨"Y", "stock", 0, 400, none, none, none, 0⟩,
     ⟨"Z", "stock", 0, 0, none, none, none, 0⟩] (by decide) (by decide)
  exact ⟨by rw [h.1]; decide, h.2.1⟩

/-- C2 counterexample: a valid durable cache entry whose age is 1.5 days
(129600 s > 86400 s = 1 day) is still served — `cache_age.days > 1` only
rejects entries at least 2 days old — refuting "older than 1 day is never
served". -/
theorem c2_counterexample :
    get_stock_data_from_db ⟨[⟨"AAPL", "1y", 0, true⟩], [("AAPL", 10)]⟩
      "AAPL" "1y" 129600 = some 10 ∧ 86400 < 129600 - 0 :=
  ⟨by decide, by decide⟩

/-- C2 amended: for a single-ticker lookup hitting a valid cache entry, the
entry is stale iff the whole-day component of its age exceeds 1 (age ≥ 2
days); fresh entries (day component ≤ 1) are served from the store whenever
price rows exist. -/
theorem c2_amended_staleness (db : DataDb) (ticker period : String) (now : ℕ)
    (e : StockAnalysisCacheEntry)
    (hfind : db.cacheEntries.find?
        (fun x => x.ticker == ticker && x.period == period && x.is_valid) = some e) :
    ((now - e.last_updated) / 86400 > 1 →
      get_stock_data_from_db db ticker period now = none) ∧
    (¬ ((now - e.last_updated) / 86400 > 1) →
      ∀ n, lookupLast db.rowCounts ticker = some n → n ≠ 0 →
        get_stock_data_from_db db ticker period now = some n) := by
  constructor
  · intro h
    rw [get_stock_data_from_db]
    simp only [hfind, if_pos h]
  · intro h n hn hn0
    rw [get_stock_data_from_db]
    simp [hfind, if_neg h, hn, hn0]

/-- Witness for the amended C2 at the spec's examples: a 2-day-old entry
(172800 s, day component 2) is not served; a 1-hour-old entry (3600 s) is
served. -/
theorem c2_amended_witness :
    get_stock_data_from_db ⟨[⟨"AAPL", "1y", 0, true⟩], [("AAPL", 10)]⟩
      "AAPL" "1y" 172800 = none ∧
    get_stock_data_from_db ⟨[⟨"AAPL", "1y", 0, true⟩], [("AAPL", 10)]⟩
      "AAPL" "1y" 3600 = some 10 := by
  constructor
  · exact (c2_amended_staleness ⟨[⟨"AAPL", "1y", 0, true⟩], [("AAPL", 10)]⟩
      "AAPL" "1y" 172800 ⟨"AAPL", "1y", 0, true⟩ (by decide)).1 (by decide)
  · exact (c2_amended_staleness ⟨[⟨"AAPL", "1y", 0, true⟩], [("AAPL", 10)]⟩
      "AAPL" "1y" 3600 ⟨"AAPL", "1y", 0, true⟩ (by decide)).2 (by decide) 10
      (by decide) (by decide)

/-- C1 counterexample: a single-ticker request whose key is fresh in BOTH
tiers (durable entry 1 hour old, memory entry 60 s old) is answered by the
durable database cache, not the ephemeral in-memory cache — the code
consults the durable tier first for single tickers — refuting the claimed
lookup order. -/
theorem c1_counterexample :
    fetch_stock_data
      ⟨⟨[⟨"AAPL", "1y", 96400, true⟩], [("AAPL", 10)]⟩,
       [("AAPL_1y_daily", (7, 99940))]⟩
      ["AAPL"] "1y" "daily" 100000 = (FetchSource.durable, some 10) ∧
    FetchSource.durable ≠ FetchSource.ephemeral ∧
    (100000 - 99940) % 86400 < 300 ∧
    (100000 - 96400) / 86400 ≤ 1 :=
  ⟨by decide, by decide, by decide, by decide⟩

/-- C1 amended: single-ticker requests consult the durable (ticker, period)
store FIRST and fall back to the ephemeral in-memory cache — keyed by the
tickers joined in request order with period and interval, fresh while the
seconds-component of its age is below 300 — only on a durable miss/stale;
multi-ticker requests use only the ephemeral tier before the external
providers. -/
theorem c1_amended_lookup_order (st : FetchState) (tickers : List String)
    (period interval : String) (now : ℕ) :
    (∀ t d, tickers = [t] →
      get_stock_data_from_db st.db t period now = some d →
      fetch_stock_data st tickers period interval now = (.durable, some d)) ∧
    (∀ t d ct, tickers = [t] →
      get_stock_data_from_db st.db t period now = none →
      lookupLast st.memCache (cacheKey tickers period interval) = some (d, ct) →
      (now - ct) % 86400 < 300 →
      fetch_stock_data st tickers period interval now = (.ephemeral, some d)) ∧
    (∀ d ct, tickers.length ≠ 1 →
      lookupLast st.memCache (cacheKey tickers period interval) = some (d, ct) →
      (now - ct) % 86400 < 300 →
      fetch_stock_data st tickers period interval now = (.ephemeral, some d)) ∧
    (tickers.length ≠ 1 →
      lookupLast st.memCache (cacheKey tickers period interval) = none →
      fetch_stock_data st tickers period interval now = (.api, none)) := by
  refine ⟨?_, ?_, ?_, ?_⟩
  · intro t d hts hdb
    subst hts
    rw [fetch_stock_data]
    simp only [List.length_singleton, if_pos rfl, List.headD_cons, hdb]
    rfl
  · intro t d ct hts hdb hmem hfresh
    subst hts
    rw [fetch_stock_data]
    simp only [List.length_singleton, if_pos rfl, List.headD_cons, hdb, hmem,
      if_pos hfresh]
    rfl
  · intro d ct hlen hmem hfresh
    rw [fetch_stock_data]
    simp only [if_neg hlen, hmem, if_pos hfresh]
  · intro hlen hmem
    rw [fetch_stock_data]
    simp only [if_neg hlen, hmem]

/-- Witness for the amended C1: with no durable entry but a fresh memory
entry, a single-ticker fetch is served from the ephemeral cache; a
two-ticker fetch with an empty memory cache goes to the external providers. -/
theorem c1_amended_witness :
    fetch_stock_data ⟨⟨[], []⟩, [("AAPL_1y_daily", (7, 99940))]⟩
      ["AAPL"] "1y" "daily" 100000 = (FetchSource.ephemeral, some 7) ∧
    fetch_stock_data
      ⟨⟨[⟨"AAPL", "1y", 96400, true⟩], [("AAPL", 10)]⟩, []⟩
      ["AAPL", "SPY"] "1y" "daily" 100000 = (FetchSource.api, none) := by
  constructor
  · exact (c1_amended_lookup_order ⟨⟨[], []⟩, [("AAPL_1y_daily", (7, 99940))]⟩
      ["AAPL"] "1y" "daily" 100000).2.1 "AAPL" 7 99940 rfl (by decide)
      (by decide) (by decide)
  · exact (c1_amended_lookup_order
      ⟨⟨[⟨"AAPL", "1y", 96400, true⟩], [("AAPL", 10)]⟩, []⟩
      ["AAPL", "SPY"] "1y" "daily" 100000).2.2.2 (by decide) (by decide)

end RiskMonitoring
